import Mathlib

/-!
Verification development for the items-api repository.

The repository under `src/lib/items-api-stack.ts` declares the cloud stack:
a GraphQL API (its schema is concatenated at the end of the source file), a
lambda data source (`lambda-fns/appsync-ds-main.handler`, whose body is not
part of the repository), and a DynamoDB table `CDKItemsTable` with
partition key `id` and a global secondary index `serialNumberIndex`
(partition key `serialNumber`, sort key `dateCreatedAt`).

The first group of definitions embeds what is literally in the source: the
GraphQL schema types and the table/index configuration.

The second group models the Item Access Dispatcher.  Its body
(`lambda-fns/appsync-ds-main.handler`) is missing from `src/`, so it is
modelled from the spec (PURPOSE, §3, §4): an in-memory store (a list of
Items in creation order), validation before any store access, and the six
operations with the §7 failure taxonomy.
-/

namespace ItemsApi

/-- Base GraphQL type, from `graphql/schema.graphql` in the source. -/
inductive GqlBase where
  | gqlID
  | gqlString
  | object (name : String)
  | listOf (inner : GqlBase)
deriving DecidableEq, Repr

/-- A GraphQL type reference together with its nullability: `String!` is
`⟨gqlString, true⟩`, bare `String` is `⟨gqlString, false⟩`. -/
structure GqlTypeRef where
  base : GqlBase
  nonNull : Bool
deriving DecidableEq, Repr

/-- A field of a GraphQL object/input type: its name, its arguments
(name/type pairs) and its result type. -/
structure GqlField where
  name : String
  args : List (String × GqlTypeRef)
  ret : GqlTypeRef
deriving DecidableEq, Repr

/-- `type Item` from the schema: every field nullable except `id`. -/
def itemTypeFields : List GqlField :=
  [ ⟨"id", [], ⟨.gqlID, true⟩⟩,
    ⟨"dateCreatedAt", [], ⟨.gqlString, false⟩⟩,
    ⟨"modelNumber", [], ⟨.gqlString, false⟩⟩,
    ⟨"serialNumber", [], ⟨.gqlString, false⟩⟩,
    ⟨"dateWarrantyBegins", [], ⟨.gqlString, false⟩⟩,
    ⟨"dateWarrantyExpires", [], ⟨.gqlString, false⟩⟩ ]

/-- `input ItemInput` from the schema: every field required. -/
def itemInputFields : List GqlField :=
  [ ⟨"id", [], ⟨.gqlID, true⟩⟩,
    ⟨"dateCreatedAt", [], ⟨.gqlString, true⟩⟩,
    ⟨"modelNumber", [], ⟨.gqlString, true⟩⟩,
    ⟨"serialNumber", [], ⟨.gqlString, true⟩⟩,
    ⟨"dateWarrantyBegins", [], ⟨.gqlString, true⟩⟩,
    ⟨"dateWarrantyExpires", [], ⟨.gqlString, true⟩⟩ ]

/-- `input ItemInputUpdate` from the schema: `id` required, the rest
optional; note there is no `dateCreatedAt` field at all. -/
def itemInputUpdateFields : List GqlField :=
  [ ⟨"id", [], ⟨.gqlID, true⟩⟩,
    ⟨"modelNumber", [], ⟨.gqlString, false⟩⟩,
    ⟨"serialNumber", [], ⟨.gqlString, false⟩⟩,
    ⟨"dateWarrantyBegins", [], ⟨.gqlString, false⟩⟩,
    ⟨"dateWarrantyExpires", [], ⟨.gqlString, false⟩⟩ ]

/-- `type Query` from the schema. -/
def queryFields : List GqlField :=
  [ ⟨"getItemById", [("itemId", ⟨.gqlString, true⟩)], ⟨.object "Item", false⟩⟩,
    ⟨"getItemBySerialNumber", [("serialNumber", ⟨.gqlString, true⟩)], ⟨.object "Item", false⟩⟩,
    ⟨"listItems", [], ⟨.listOf (.object "Item"), false⟩⟩ ]

/-- `type Mutation` from the schema.  `deleteItem` is declared to return a
nullable `String`. -/
def mutationFields : List GqlField :=
  [ ⟨"createItem", [("item", ⟨.object "ItemInput", true⟩)], ⟨.object "Item", false⟩⟩,
    ⟨"updateItem", [("item", ⟨.object "ItemInputUpdate", true⟩)], ⟨.object "Item", false⟩⟩,
    ⟨"deleteItem", [("itemId", ⟨.gqlString, true⟩)], ⟨.gqlString, false⟩⟩ ]

/-- A DynamoDB key attribute (name and attribute type), as configured in
`src/lib/items-api-stack.ts`. -/
structure KeyAttribute where
  name : String
  attrType : String
deriving DecidableEq, Repr

/-- A global secondary index configuration, as in
`itemsTable.addGlobalSecondaryIndex`. -/
structure GsiSpec where
  indexName : String
  partitionKey : KeyAttribute
  sortKey : Option KeyAttribute
deriving DecidableEq, Repr

/-- The shape of the DynamoDB table configuration `CDKItemsTable` in
`src/lib/items-api-stack.ts`. -/
structure TableSpec where
  billingMode : String
  partitionKey : KeyAttribute
  sortKey : Option KeyAttribute
  globalSecondaryIndexes : List GsiSpec
deriving DecidableEq, Repr

/-- `serialNumberIndex`: GSI with partition key `serialNumber` and sort
key `dateCreatedAt`, both strings (lines 164-174 of the stack). -/
def serialNumberIndex : GsiSpec :=
  { indexName := "serialNumberIndex"
    partitionKey := ⟨"serialNumber", "STRING"⟩
    sortKey := some ⟨"dateCreatedAt", "STRING"⟩ }

/-- `CDKItemsTable`: pay-per-request table with string partition key `id`,
no table sort key, and the `serialNumberIndex` GSI (lines 155-174). -/
def itemsTable : TableSpec :=
  { billingMode := "PAY_PER_REQUEST"
    partitionKey := ⟨"id", "STRING"⟩
    sortKey := none
    globalSecondaryIndexes := [serialNumberIndex] }

/-- Modelled from the spec: the Item entity (§3) served by the missing
handler `lambda-fns/appsync-ds-main.handler`; the field set matches
`type Item` in the schema. -/
structure Item where
  id : String
  dateCreatedAt : String
  modelNumber : String
  serialNumber : String
  dateWarrantyBegins : String
  dateWarrantyExpires : String
deriving DecidableEq, Repr

/-- Modelled from the spec: the state of the key-value table behind the
missing handler — the stored Items, in creation order. -/
abbrev Store : Type := List Item

/-- Modelled from the spec: the failure taxonomy of §7. -/
inductive Failure where
  | unknownOperation
  | invalidArgument
  | notFound
  | alreadyExists
  | storeError
deriving DecidableEq, Repr

deriving instance DecidableEq for Except

/-- Modelled from the spec: the result channel, a tagged
success-or-failure envelope (§4.4). -/
abbrev Res (α : Type) : Type := Except Failure α

/-- Modelled from the spec: `getById` of the store contract (§4.1) of the
missing handler — the record whose primary key equals `id`, if any. -/
def getById (id : String) (s : Store) : Option Item :=
  s.find? (fun i => i.id == id)

/-- Modelled from the spec: of two Items, the one created later
(`dateCreatedAt` string order, matching the index's string sort key,
§4.1); ties keep the first argument, i.e. the index's creation-time
ordering. -/
def laterOf (a b : Item) : Item :=
  if a.dateCreatedAt < b.dateCreatedAt then b else a

/-- Modelled from the spec: the most recently created Item of a list, if
non-empty (§4.1). -/
def latestOf : List Item → Option Item
  | [] => none
  | i :: rest => some (rest.foldl laterOf i)

/-- Modelled from the spec: `getBySerialNumber` of the store contract
(§4.1) of the missing handler — among the records sharing the serial
number, the most recently created one. -/
def getBySerialNumber (sn : String) (s : Store) : Option Item :=
  latestOf (s.filter (fun i => i.serialNumber == sn))

/-- Modelled from the spec: the `createItem` argument record as the
missing handler receives it (field set of `input ItemInput`; `Option`
models a field missing from the parsed record, which validation must
reject per §4.3). -/
structure ItemInput where
  id : Option String
  dateCreatedAt : Option String
  modelNumber : Option String
  serialNumber : Option String
  dateWarrantyBegins : Option String
  dateWarrantyExpires : Option String
deriving DecidableEq, Repr

/-- Modelled from the spec: the `updateItem` argument record (field set
of `input ItemInputUpdate`: no `dateCreatedAt` field). -/
structure ItemInputUpdate where
  id : Option String
  modelNumber : Option String
  serialNumber : Option String
  dateWarrantyBegins : Option String
  dateWarrantyExpires : Option String
deriving DecidableEq, Repr

/-- Modelled from the spec: a well-formed identifier (§4.3) — non-empty,
no embedded path separators. -/
def wellFormedId (s : String) : Bool :=
  !(s == "") && !(s.data.contains '/') && !(s.data.contains '\\')

/-- Modelled from the spec: `createItem` validation (§4.3) of the missing
handler — all six fields must be present and non-empty, `id` additionally
well-formed; yields the Item to store, or `none` when the record is
rejected. -/
def validateCreate (a : ItemInput) : Option Item :=
  match a with
  | ⟨some id, some dca, some mn, some sn, some dwb, some dwe⟩ =>
    if wellFormedId id && !(dca == "") && !(mn == "") && !(sn == "")
        && !(dwb == "") && !(dwe == "") then
      some ⟨id, dca, mn, sn, dwb, dwe⟩
    else none
  | _ => none

/-- Modelled from the spec: `createItem` (§4.2) of the missing handler —
validate, then `put` with `expectNotExists`; a duplicate `id` is
`AlreadyExists`; on success the created Item and the new store state. -/
def createItem (a : ItemInput) (s : Store) : Res (Item × Store) :=
  match validateCreate a with
  | none => .error .invalidArgument
  | some item =>
    match getById item.id s with
    | some _ => .error .alreadyExists
    | none => .ok (item, s ++ [item])

/-- Modelled from the spec: `getItemById` (§4.2/§4.3) of the missing
handler — `itemId` must be non-empty, else `InvalidArgument` with no
store access; then primary lookup. -/
def getItemById (itemId : String) (s : Store) : Res Item :=
  if itemId == "" then .error .invalidArgument
  else
    match getById itemId s with
    | some i => .ok i
    | none => .error .notFound

/-- Modelled from the spec: `getItemBySerialNumber` (§4.2/§4.3) of the
missing handler — `serialNumber` must be non-empty, else
`InvalidArgument` with no store access; then secondary-index lookup. -/
def getItemBySerialNumber (sn : String) (s : Store) : Res Item :=
  if sn == "" then .error .invalidArgument
  else
    match getBySerialNumber sn s with
    | some i => .ok i
    | none => .error .notFound

/-- Modelled from the spec: `listItems` (§4.2) of the missing handler —
the complete stored sequence, no partial result on success. -/
def listItems (s : Store) : Res (List Item) := .ok s

/-- Modelled from the spec: merge the supplied optional fields of an
update onto an existing record (§4.1 `applyPartialUpdate` of the missing
handler, read-modify-write of only the supplied fields; `id` and
`dateCreatedAt` are not updatable). -/
def mergeUpdate (u : ItemInputUpdate) (i : Item) : Item :=
  { i with
    modelNumber := u.modelNumber.getD i.modelNumber
    serialNumber := u.serialNumber.getD i.serialNumber
    dateWarrantyBegins := u.dateWarrantyBegins.getD i.dateWarrantyBegins
    dateWarrantyExpires := u.dateWarrantyExpires.getD i.dateWarrantyExpires }

/-- Modelled from the spec: replace the record with the given `id` by its
merged update; `none` when no record has that `id` (§4.1
`applyPartialUpdate`). -/
def applyPartialUpdate (u : ItemInputUpdate) (id : String) : Store → Option (Item × Store)
  | [] => none
  | i :: rest =>
    if i.id == id then
      let m := mergeUpdate u i
      some (m, m :: rest)
    else
      match applyPartialUpdate u id rest with
      | some (m, rest2) => some (m, i :: rest2)
      | none => none

/-- Modelled from the spec: `updateItem` (§4.2/§4.3) of the missing
handler — `id` required non-empty; partial read-modify-write merge;
`NotFound` when the record does not exist. -/
def updateItem (u : ItemInputUpdate) (s : Store) : Res (Item × Store) :=
  match u.id with
  | none => .error .invalidArgument
  | some id =>
    if id == "" then .error .invalidArgument
    else
      match applyPartialUpdate u id s with
      | some (m, s2) => .ok (m, s2)
      | none => .error .notFound

/-- Modelled from the spec: `deleteItem` (§4.2/§4.3) of the missing
handler — `itemId` required non-empty; removes the record with that
primary key (and, with it, its secondary-index projection) and echoes the
deleted id; `NotFound` when absent. -/
def deleteItem (itemId : String) (s : Store) : Res (String × Store) :=
  if itemId == "" then .error .invalidArgument
  else
    match getById itemId s with
    | some _ => .ok (itemId, s.filter (fun i => !(i.id == itemId)))
    | none => .error .notFound

/-- The store state after an `updateItem` call: the new state on
success, the unchanged state on failure. -/
def updStore (u : ItemInputUpdate) (s : Store) : Store :=
  match updateItem u s with
  | .ok (_, s2) => s2
  | .error _ => s

/-- The store state after a sequence of `updateItem` calls. -/
def updSeq (us : List ItemInputUpdate) (s : Store) : Store :=
  us.foldl (fun t u => updStore u t) s

/-- Run a sequence of creates from a given state; `none` as soon as one
fails. -/
def createMany : List ItemInput → Store → Option Store
  | [], s => some s
  | a :: rest, s =>
    match createItem a s with
    | .ok (_, s2) => createMany rest s2
    | .error _ => none

/-- All six fields of an Item non-empty with a well-formed id: exactly
the records `validateCreate` accepts. -/
def itemValid (i : Item) : Bool :=
  wellFormedId i.id && !(i.dateCreatedAt == "") && !(i.modelNumber == "")
    && !(i.serialNumber == "") && !(i.dateWarrantyBegins == "")
    && !(i.dateWarrantyExpires == "")

/-- The create-argument record carrying exactly the fields of an Item. -/
def inputOfItem (i : Item) : ItemInput :=
  ⟨some i.id, some i.dateCreatedAt, some i.modelNumber, some i.serialNumber,
    some i.dateWarrantyBegins, some i.dateWarrantyExpires⟩

/-- The creation identity of a record: its primary key and creation
timestamp, the two attributes an update can never touch. -/
def keyCreated (i : Item) : String × String := (i.id, i.dateCreatedAt)

/-! ## Helper lemmas -/

theorem validateCreate_inputOfItem (i : Item) (hv : itemValid i = true) :
    validateCreate (inputOfItem i) = some i := by
  simp only [validateCreate, inputOfItem]
  rw [show (wellFormedId i.id && !(i.dateCreatedAt == "") && !(i.modelNumber == "")
      && !(i.serialNumber == "") && !(i.dateWarrantyBegins == "")
      && !(i.dateWarrantyExpires == "")) = itemValid i from rfl, hv]
  simp

theorem itemValid_id_ne (i : Item) (hv : itemValid i = true) : ¬ i.id = "" := by
  intro h
  simp only [itemValid, Bool.and_eq_true, wellFormedId, h] at hv
  simp at hv

theorem validateCreate_itemValid (a : ItemInput) (i : Item)
    (h : validateCreate a = some i) : itemValid i = true := by
  obtain ⟨oid, odca, omn, osn, owb, owe⟩ := a
  cases oid <;> cases odca <;> cases omn <;> cases osn <;> cases owb <;> cases owe <;>
    simp only [validateCreate] at h <;> try exact Option.noConfusion h
  split at h
  next hcond =>
    injection h with h2
    subst h2
    simpa [itemValid] using hcond
  next => exact Option.noConfusion h

theorem validateCreate_shape (a : ItemInput) :
    (∃ i, validateCreate a = some i) ↔
      (∃ id dca mn sn dwb dwe, a = ⟨some id, some dca, some mn, some sn, some dwb, some dwe⟩
        ∧ id ≠ "" ∧ id.data.contains '/' = false ∧ id.data.contains '\\' = false
        ∧ dca ≠ "" ∧ mn ≠ "" ∧ sn ≠ "" ∧ dwb ≠ "" ∧ dwe ≠ "") := by
  obtain ⟨oid, odca, omn, osn, owb, owe⟩ := a
  cases oid <;> cases odca <;> cases omn <;> cases osn <;> cases owb <;> cases owe <;>
    simp [validateCreate, wellFormedId, Bool.and_eq_true, and_assoc]

theorem getItemById_ok_elim (id : String) (s : Store) (i0 : Item)
    (h : getItemById id s = .ok i0) :
    ¬ id = "" ∧ s.find? (fun j => j.id == id) = some i0 := by
  by_cases hne : id = ""
  · rw [getItemById, if_pos (by simp [hne])] at h
    exact Except.noConfusion h
  · refine ⟨hne, ?_⟩
    rw [getItemById, if_neg (by simp [hne])] at h
    revert h
    cases hg : getById id s with
    | none => exact fun h => Except.noConfusion h
    | some i =>
      intro h
      injection h with h
      subst h
      exact hg

theorem mergeUpdate_id (u : ItemInputUpdate) (i : Item) : (mergeUpdate u i).id = i.id := rfl

theorem applyPartialUpdate_spec (u : ItemInputUpdate) (id : String) (s : Store) (i0 : Item)
    (h : s.find? (fun j => j.id == id) = some i0) :
    ∃ s2, applyPartialUpdate u id s = some (mergeUpdate u i0, s2) ∧
      s2.find? (fun j => j.id == id) = some (mergeUpdate u i0) := by
  induction s with
  | nil => exact Option.noConfusion h
  | cons i rest ih =>
    by_cases hi : (i.id == id) = true
    · rw [@List.find?_cons_of_pos _ (fun j => j.id == id) i rest hi] at h
      injection h with h
      subst h
      refine ⟨mergeUpdate u i :: rest, ?_, ?_⟩
      · simp [applyPartialUpdate, hi]
      · exact @List.find?_cons_of_pos _ (fun j => j.id == id) (mergeUpdate u i) rest
          (by simpa [mergeUpdate_id] using hi)
    · rw [@List.find?_cons_of_neg _ (fun j => j.id == id) i rest hi] at h
      obtain ⟨s2, h1, h2⟩ := ih h
      refine ⟨i :: s2, ?_, ?_⟩
      · simp only [applyPartialUpdate]
        rw [if_neg hi, h1]
      · rw [@List.find?_cons_of_neg _ (fun j => j.id == id) i s2 hi]
        exact h2

theorem applyPartialUpdate_map (u : ItemInputUpdate) (id : String) (s : Store)
    (m : Item) (s2 : Store) (h : applyPartialUpdate u id s = some (m, s2)) :
    s2.map keyCreated = s.map keyCreated := by
  induction s generalizing s2 with
  | nil => exact Option.noConfusion h
  | cons i rest ih =>
    simp only [applyPartialUpdate] at h
    by_cases hi : (i.id == id) = true
    · rw [if_pos hi] at h
      simp only [Option.some.injEq, Prod.mk.injEq] at h
      obtain ⟨h1, h2⟩ := h
      subst h2
      simp [keyCreated, mergeUpdate]
    · rw [if_neg hi] at h
      cases hrec : applyPartialUpdate u id rest with
      | none => rw [hrec] at h; exact Option.noConfusion h
      | some pr =>
        obtain ⟨m2, rest2⟩ := pr
        rw [hrec] at h
        simp only [Option.some.injEq, Prod.mk.injEq] at h
        obtain ⟨h1, h2⟩ := h
        subst h2
        simp [keyCreated, ih rest2 (h1 ▸ hrec)]

theorem updStore_map (u : ItemInputUpdate) (s : Store) :
    (updStore u s).map keyCreated = s.map keyCreated := by
  cases hu : updateItem u s with
  | error e => simp [updStore, hu]
  | ok p =>
    obtain ⟨m, s2⟩ := p
    have hu2 := hu
    simp only [updateItem] at hu2
    cases hid : u.id with
    | none => simp only [hid] at hu2; exact Except.noConfusion hu2
    | some id =>
      simp only [hid] at hu2
      by_cases hne : (id == "") = true
      · rw [if_pos hne] at hu2; exact Except.noConfusion hu2
      · rw [if_neg hne] at hu2
        cases hap : applyPartialUpdate u id s with
        | none => simp only [hap] at hu2; exact Except.noConfusion hu2
        | some pr =>
          obtain ⟨m2, s3⟩ := pr
          simp only [hap, Except.ok.injEq, Prod.mk.injEq] at hu2
          obtain ⟨h1, h2⟩ := hu2
          subst h2
          simp only [updStore, hu]
          exact applyPartialUpdate_map u id s m2 _ hap

theorem updSeq_map (us : List ItemInputUpdate) (s : Store) :
    (updSeq us s).map keyCreated = s.map keyCreated := by
  induction us generalizing s with
  | nil => rfl
  | cons u rest ih =>
    rw [updSeq, List.foldl_cons]
    exact ((ih (updStore u s)).trans (updStore_map u s) : _)

theorem find_key_of_map_eq (id : String) (s s2 : Store)
    (h : s2.map keyCreated = s.map keyCreated) :
    Option.map keyCreated (s2.find? (fun j => j.id == id)) =
      Option.map keyCreated (s.find? (fun j => j.id == id)) := by
  induction s generalizing s2 with
  | nil =>
    have h2 : s2 = [] := by simpa using h
    rw [h2]
  | cons i rest ih =>
    cases s2 with
    | nil => exact absurd h (by simp)
    | cons j rest2 =>
      simp only [List.map_cons, List.cons.injEq] at h
      obtain ⟨hji, hrest⟩ := h
      have hid : j.id = i.id := congrArg Prod.fst hji
      by_cases hmatch : (i.id == id) = true
      · rw [@List.find?_cons_of_pos _ (fun k => k.id == id) i rest hmatch,
          @List.find?_cons_of_pos _ (fun k => k.id == id) j rest2
            (by show (j.id == id) = true; rw [hid]; exact hmatch)]
        simp [hji]
      · rw [@List.find?_cons_of_neg _ (fun k => k.id == id) i rest hmatch,
          @List.find?_cons_of_neg _ (fun k => k.id == id) j rest2
            (by show ¬ (j.id == id) = true; rw [hid]; exact hmatch)]
        exact ih rest2 hrest

theorem createMany_ok (items : List Item) (s : Store)
    (hv : ∀ i ∈ items, itemValid i = true)
    (hnodup : (items.map Item.id).Nodup)
    (hfresh : ∀ i ∈ items, getById i.id s = none) :
    createMany (items.map inputOfItem) s = some (s ++ items) := by
  induction items generalizing s with
  | nil => simp [createMany]
  | cons it rest ih =>
    have hvit : itemValid it = true := hv it (by simp)
    have hva := validateCreate_inputOfItem it hvit
    have hfit : getById it.id s = none := hfresh it (by simp)
    have hstep : createItem (inputOfItem it) s = .ok (it, s ++ [it]) := by
      simp [createItem, hva, hfit]
    rw [List.map_cons, createMany, hstep]
    show createMany (rest.map inputOfItem) (s ++ [it]) = some (s ++ it :: rest)
    have hfresh2 : ∀ i ∈ rest, getById i.id (s ++ [it]) = none := by
      intro i hi
      have h1 : getById i.id s = none := hfresh i (by simp [hi])
      have hne : ¬ it.id = i.id := by
        intro he
        have : it.id ∈ rest.map Item.id := he ▸ List.mem_map_of_mem Item.id hi
        simp only [List.map_cons, List.nodup_cons] at hnodup
        exact hnodup.1 this
      rw [getById] at h1 ⊢
      rw [List.find?_append, h1]
      simp [hne]
    rw [ih (s ++ [it]) (fun i hi => hv i (by simp [hi]))
        (by simpa using (List.nodup_cons.mp (by simpa using hnodup)).2) hfresh2]
    simp

/-! ## Claim theorems -/

/-- C1: for every valid create input whose id is not already stored,
`createItem` stores exactly the Item built from the input and a
subsequent `getItemById` on that id returns an Item equal to the
input. -/
theorem create_then_get_roundtrip (i : Item) (s : Store)
    (hv : itemValid i = true) (hfresh : getById i.id s = none) :
    createItem (inputOfItem i) s = .ok (i, s ++ [i]) ∧
      getItemById i.id (s ++ [i]) = .ok i := by
  have hval := validateCreate_inputOfItem i hv
  have hidne : ¬ i.id = "" := itemValid_id_ne i hv
  rw [getById] at hfresh
  refine ⟨by simp [createItem, hval, getById, hfresh], ?_⟩
  simp [getItemById, hidne, getById, List.find?_append, hfresh]

/-- Witness for C1 at a concrete input. -/
theorem create_then_get_roundtrip_witness :
    createItem (inputOfItem ⟨"w1", "2020", "m", "s", "wb", "we"⟩) [] =
        .ok (⟨"w1", "2020", "m", "s", "wb", "we"⟩, [] ++ [⟨"w1", "2020", "m", "s", "wb", "we"⟩]) ∧
      getItemById (Item.id ⟨"w1", "2020", "m", "s", "wb", "we"⟩)
          ([] ++ [⟨"w1", "2020", "m", "s", "wb", "we"⟩]) =
        .ok ⟨"w1", "2020", "m", "s", "wb", "we"⟩ :=
  create_then_get_roundtrip ⟨"w1", "2020", "m", "s", "wb", "we"⟩ [] (by decide) rfl

/-- C2: a second `createItem` whose validated input reuses a stored id
returns `AlreadyExists` and produces no new state, and the first Item
remains retrievable unchanged by `getItemById`; the table's partition
key is the string attribute `id`. -/
theorem create_duplicate_rejected (a : ItemInput) (item i0 : Item) (s : Store)
    (hval : validateCreate a = some item) (hstored : getById item.id s = some i0) :
    createItem a s = .error .alreadyExists ∧ getItemById item.id s = .ok i0 ∧
      itemsTable.partitionKey = ⟨"id", "STRING"⟩ := by
  have hid : ¬ item.id = "" := itemValid_id_ne item (validateCreate_itemValid a item hval)
  exact ⟨by simp [createItem, hval, hstored], by simp [getItemById, hid, hstored], rfl⟩

/-- Witness for C2 at a concrete input. -/
theorem create_duplicate_rejected_witness :
    createItem (inputOfItem ⟨"a", "2020", "m1", "s", "wb", "we"⟩)
        [⟨"a", "2020", "m1", "s", "wb", "we"⟩] = .error .alreadyExists ∧
      getItemById (Item.id ⟨"a", "2020", "m1", "s", "wb", "we"⟩)
          [⟨"a", "2020", "m1", "s", "wb", "we"⟩] =
        .ok ⟨"a", "2020", "m1", "s", "wb", "we"⟩ ∧
      itemsTable.partitionKey = ⟨"id", "STRING"⟩ :=
  create_duplicate_rejected (inputOfItem ⟨"a", "2020", "m1", "s", "wb", "we"⟩)
    ⟨"a", "2020", "m1", "s", "wb", "we"⟩ ⟨"a", "2020", "m1", "s", "wb", "we"⟩
    [⟨"a", "2020", "m1", "s", "wb", "we"⟩] rfl rfl

/-- C3: when exactly two stored Items share a serial number and their
`dateCreatedAt` differ, `getItemBySerialNumber` returns the one with the
later `dateCreatedAt`, matching the index's creation-time ordering
(sort key `dateCreatedAt`). -/
theorem getBySerialNumber_returns_latest (sn : String) (a b : Item) (s : Store)
    (hsn : ¬ sn = "")
    (hfilter : s.filter (fun j => j.serialNumber == sn) = [a, b] ∨
               s.filter (fun j => j.serialNumber == sn) = [b, a])
    (hlt : a.dateCreatedAt < b.dateCreatedAt) :
    getItemBySerialNumber sn s = .ok b ∧
      serialNumberIndex.sortKey = some ⟨"dateCreatedAt", "STRING"⟩ := by
  refine ⟨?_, rfl⟩
  have hnotlt : ¬ b.dateCreatedAt < a.dateCreatedAt := lt_asymm hlt
  rcases hfilter with h | h <;>
    simp [getItemBySerialNumber, getBySerialNumber, hsn, h, latestOf, laterOf, hlt, hnotlt]

/-- Witness for C3 at a concrete input. -/
theorem getBySerialNumber_returns_latest_witness :
    getItemBySerialNumber "s"
        [⟨"a", "2020", "m1", "s", "wb", "we"⟩, ⟨"b", "2021", "m2", "s", "wb", "we"⟩] =
      .ok ⟨"b", "2021", "m2", "s", "wb", "we"⟩ ∧
      serialNumberIndex.sortKey = some ⟨"dateCreatedAt", "STRING"⟩ :=
  getBySerialNumber_returns_latest "s"
    ⟨"a", "2020", "m1", "s", "wb", "we"⟩ ⟨"b", "2021", "m2", "s", "wb", "we"⟩
    [⟨"a", "2020", "m1", "s", "wb", "we"⟩, ⟨"b", "2021", "m2", "s", "wb", "we"⟩]
    (by decide) (Or.inl rfl) (by rw [String.lt_iff_toList_lt]; decide)

/-- C4: `updateItem` supplying only `id` and `modelNumber` merges the new
`modelNumber` onto the stored record and leaves `serialNumber`,
`dateWarrantyBegins`, `dateWarrantyExpires` (and `dateCreatedAt`)
unchanged; a subsequent `getItemById` returns the new `modelNumber`
together with the old values of all other fields. -/
theorem update_modelNumber_frame (id m : String) (i0 : Item) (s : Store)
    (hstored : getItemById id s = .ok i0) :
    ∃ s2, updateItem ⟨some id, some m, none, none, none⟩ s =
        .ok ({ i0 with modelNumber := m }, s2) ∧
      getItemById id s2 = .ok { i0 with modelNumber := m } ∧
      ({ i0 with modelNumber := m }).serialNumber = i0.serialNumber ∧
      ({ i0 with modelNumber := m }).dateWarrantyBegins = i0.dateWarrantyBegins ∧
      ({ i0 with modelNumber := m }).dateWarrantyExpires = i0.dateWarrantyExpires ∧
      ({ i0 with modelNumber := m }).dateCreatedAt = i0.dateCreatedAt ∧
      ({ i0 with modelNumber := m }).modelNumber = m := by
  obtain ⟨hne, hfind⟩ := getItemById_ok_elim id s i0 hstored
  obtain ⟨s2, h1, h2⟩ := applyPartialUpdate_spec ⟨some id, some m, none, none, none⟩ id s i0 hfind
  have hmerge : mergeUpdate ⟨some id, some m, none, none, none⟩ i0 =
      { i0 with modelNumber := m } := rfl
  rw [hmerge] at h1 h2
  refine ⟨s2, ?_, ?_, rfl, rfl, rfl, rfl, rfl⟩
  · simp only [updateItem]
    rw [if_neg (by simp [hne]), h1]
  · rw [getItemById, if_neg (by simp [hne]), getById, h2]

/-- Witness for C4 at a concrete input. -/
theorem update_modelNumber_frame_witness :
    ∃ s2, updateItem ⟨some "a", some "m2", none, none, none⟩
        [⟨"a", "2020", "m1", "s", "wb", "we"⟩] =
        .ok ({ (⟨"a", "2020", "m1", "s", "wb", "we"⟩ : Item) with modelNumber := "m2" }, s2) ∧
      getItemById "a" s2 =
        .ok { (⟨"a", "2020", "m1", "s", "wb", "we"⟩ : Item) with modelNumber := "m2" } ∧
      ({ (⟨"a", "2020", "m1", "s", "wb", "we"⟩ : Item) with modelNumber := "m2" }).serialNumber =
        Item.serialNumber ⟨"a", "2020", "m1", "s", "wb", "we"⟩ ∧
      ({ (⟨"a", "2020", "m1", "s", "wb", "we"⟩ : Item) with modelNumber := "m2" }).dateWarrantyBegins =
        Item.dateWarrantyBegins ⟨"a", "2020", "m1", "s", "wb", "we"⟩ ∧
      ({ (⟨"a", "2020", "m1", "s", "wb", "we"⟩ : Item) with modelNumber := "m2" }).dateWarrantyExpires =
        Item.dateWarrantyExpires ⟨"a", "2020", "m1", "s", "wb", "we"⟩ ∧
      ({ (⟨"a", "2020", "m1", "s", "wb", "we"⟩ : Item) with modelNumber := "m2" }).dateCreatedAt =
        Item.dateCreatedAt ⟨"a", "2020", "m1", "s", "wb", "we"⟩ ∧
      ({ (⟨"a", "2020", "m1", "s", "wb", "we"⟩ : Item) with modelNumber := "m2" }).modelNumber = "m2" :=
  update_modelNumber_frame "a" "m2" ⟨"a", "2020", "m1", "s", "wb", "we"⟩
    [⟨"a", "2020", "m1", "s", "wb", "we"⟩] rfl

/-- C5 counterexample: with two stored Items sharing serial number `s`,
deleting the first succeeds and echoes its id, yet a subsequent
`getItemBySerialNumber` on that serial number does not return `NotFound`
— it returns the surviving Item. -/
theorem delete_serial_lookup_cex :
    getItemById "a" [⟨"a", "2020", "m", "s", "wb", "we"⟩, ⟨"b", "2021", "m", "s", "wb", "we"⟩]
        = .ok ⟨"a", "2020", "m", "s", "wb", "we"⟩ ∧
      deleteItem "a" [⟨"a", "2020", "m", "s", "wb", "we"⟩, ⟨"b", "2021", "m", "s", "wb", "we"⟩]
        = .ok ("a", [⟨"b", "2021", "m", "s", "wb", "we"⟩]) ∧
      getItemBySerialNumber "s" [⟨"b", "2021", "m", "s", "wb", "we"⟩]
        = .ok ⟨"b", "2021", "m", "s", "wb", "we"⟩ ∧
      getItemBySerialNumber "s" [⟨"b", "2021", "m", "s", "wb", "we"⟩]
        ≠ .error .notFound := by
  refine ⟨rfl, rfl, rfl, ?_⟩
  decide

/-- C5 (amended): for every retrievable Item whose serial number is
non-empty and shared by no other stored Item, `deleteItem` on its id
succeeds and returns that id; afterwards `getItemById` on the id and
`getItemBySerialNumber` on its serial number return `NotFound`, and a
second `deleteItem` on the id returns `NotFound`. -/
theorem delete_then_lookups_not_found (i : Item) (s : Store)
    (hstored : getItemById i.id s = .ok i)
    (hsn : ¬ i.serialNumber = "")
    (honly : ∀ j ∈ s, j.serialNumber = i.serialNumber → j.id = i.id) :
    deleteItem i.id s = .ok (i.id, s.filter (fun j => !(j.id == i.id))) ∧
      getItemById i.id (s.filter (fun j => !(j.id == i.id))) = .error .notFound ∧
      getItemBySerialNumber i.serialNumber (s.filter (fun j => !(j.id == i.id)))
        = .error .notFound ∧
      deleteItem i.id (s.filter (fun j => !(j.id == i.id))) = .error .notFound := by
  obtain ⟨hne, hfind⟩ := getItemById_ok_elim i.id s i hstored
  have hnone : (s.filter (fun j => !(j.id == i.id))).find? (fun j => j.id == i.id) = none := by
    rw [List.find?_eq_none]
    intro x hx
    simpa using (List.mem_filter.mp hx).2
  have hfilter2 : (s.filter (fun j => !(j.id == i.id))).filter
      (fun j => j.serialNumber == i.serialNumber) = [] := by
    rw [List.filter_eq_nil_iff]
    intro x hx
    obtain ⟨hxs, hxid⟩ := List.mem_filter.mp hx
    simp only [Bool.not_eq_true', beq_eq_false_iff_ne] at hxid
    simp only [beq_iff_eq]
    intro hsn2
    exact hxid (honly x hxs hsn2)
  refine ⟨?_, ?_, ?_, ?_⟩
  · rw [deleteItem, if_neg (by simp [hne]), getById, hfind]
  · rw [getItemById, if_neg (by simp [hne]), getById, hnone]
  · rw [getItemBySerialNumber, if_neg (by simp [hsn]), getBySerialNumber, hfilter2]
    rfl
  · rw [deleteItem, if_neg (by simp [hne]), getById, hnone]

/-- Witness for the amended C5 at a concrete input. -/
theorem delete_then_lookups_not_found_witness :
    deleteItem (Item.id ⟨"a", "2020", "m1", "s", "wb", "we"⟩)
        [⟨"a", "2020", "m1", "s", "wb", "we"⟩] =
      .ok (Item.id ⟨"a", "2020", "m1", "s", "wb", "we"⟩,
        List.filter (fun j => !(j.id == Item.id ⟨"a", "2020", "m1", "s", "wb", "we"⟩))
          [⟨"a", "2020", "m1", "s", "wb", "we"⟩]) ∧
      getItemById (Item.id ⟨"a", "2020", "m1", "s", "wb", "we"⟩)
        (List.filter (fun j => !(j.id == Item.id ⟨"a", "2020", "m1", "s", "wb", "we"⟩))
          [⟨"a", "2020", "m1", "s", "wb", "we"⟩]) = .error .notFound ∧
      getItemBySerialNumber (Item.serialNumber ⟨"a", "2020", "m1", "s", "wb", "we"⟩)
        (List.filter (fun j => !(j.id == Item.id ⟨"a", "2020", "m1", "s", "wb", "we"⟩))
          [⟨"a", "2020", "m1", "s", "wb", "we"⟩]) = .error .notFound ∧
      deleteItem (Item.id ⟨"a", "2020", "m1", "s", "wb", "we"⟩)
        (List.filter (fun j => !(j.id == Item.id ⟨"a", "2020", "m1", "s", "wb", "we"⟩))
          [⟨"a", "2020", "m1", "s", "wb", "we"⟩]) = .error .notFound :=
  delete_then_lookups_not_found ⟨"a", "2020", "m1", "s", "wb", "we"⟩
    [⟨"a", "2020", "m1", "s", "wb", "we"⟩] rfl (by decide) (by decide)

/-- C6: creating any list of valid Items with pairwise distinct ids from
the empty state succeeds, and `listItems` then returns exactly those
Items as a complete sequence (order-independent set equality holds since
the returned list is a permutation of the created Items). -/
theorem listItems_returns_all_created (items : List Item)
    (hv : ∀ i ∈ items, itemValid i = true)
    (hnodup : (items.map Item.id).Nodup) :
    createMany (items.map inputOfItem) [] = some items ∧
      ∃ l, listItems items = .ok l ∧ l.Perm items := by
  have := createMany_ok items [] hv hnodup (fun i _ => rfl)
  simpa using ⟨this, items, rfl, List.Perm.refl items⟩

/-- Witness for C6 at a concrete input. -/
theorem listItems_returns_all_created_witness :
    createMany (List.map inputOfItem
        [⟨"a", "2020", "m1", "s", "wb", "we"⟩, ⟨"b", "2021", "m2", "t", "wb", "we"⟩]) [] =
      some [⟨"a", "2020", "m1", "s", "wb", "we"⟩, ⟨"b", "2021", "m2", "t", "wb", "we"⟩] ∧
      ∃ l, listItems [⟨"a", "2020", "m1", "s", "wb", "we"⟩, ⟨"b", "2021", "m2", "t", "wb", "we"⟩] =
          .ok l ∧
        l.Perm [⟨"a", "2020", "m1", "s", "wb", "we"⟩, ⟨"b", "2021", "m2", "t", "wb", "we"⟩] :=
  listItems_returns_all_created
    [⟨"a", "2020", "m1", "s", "wb", "we"⟩, ⟨"b", "2021", "m2", "t", "wb", "we"⟩]
    (by decide) (by decide)

/-- C7: `createItem` fails with `InvalidArgument` — on every store state,
so before any store access — exactly when the argument record is not six
present non-empty strings with an id free of path separators. -/
theorem create_requires_all_fields (a : ItemInput) (s : Store) :
    createItem a s = .error .invalidArgument ↔
      ¬ (∃ id dca mn sn dwb dwe,
          a = ⟨some id, some dca, some mn, some sn, some dwb, some dwe⟩
          ∧ id ≠ "" ∧ id.data.contains '/' = false ∧ id.data.contains '\\' = false
          ∧ dca ≠ "" ∧ mn ≠ "" ∧ sn ≠ "" ∧ dwb ≠ "" ∧ dwe ≠ "") := by
  rw [← validateCreate_shape]
  cases hv : validateCreate a with
  | none => simp [createItem, hv]
  | some item =>
    cases hg : getById item.id s <;> simp [createItem, hv, hg]

/-- Witness for C7 at a concrete input. -/
theorem create_requires_all_fields_witness :
    createItem ⟨some "a", none, some "m", some "s", some "wb", some "we"⟩ [] =
        .error .invalidArgument ↔
      ¬ (∃ id dca mn sn dwb dwe,
          (⟨some "a", none, some "m", some "s", some "wb", some "we"⟩ : ItemInput)
            = ⟨some id, some dca, some mn, some sn, some dwb, some dwe⟩
          ∧ id ≠ "" ∧ id.data.contains '/' = false ∧ id.data.contains '\\' = false
          ∧ dca ≠ "" ∧ mn ≠ "" ∧ sn ≠ "" ∧ dwb ≠ "" ∧ dwe ≠ "") :=
  create_requires_all_fields ⟨some "a", none, some "m", some "s", some "wb", some "we"⟩ []

/-- C8: `getItemById` and `getItemBySerialNumber` with an empty-string
argument return `InvalidArgument`, not `NotFound`, on every store state
— so no store access can influence the outcome. -/
theorem empty_lookup_invalid_argument (s : Store) :
    getItemById "" s = .error .invalidArgument ∧
      getItemBySerialNumber "" s = .error .invalidArgument :=
  ⟨rfl, rfl⟩

/-- Witness for C8 at a concrete input. -/
theorem empty_lookup_invalid_argument_witness :
    getItemById "" [⟨"a", "2020", "m1", "s", "wb", "we"⟩] = .error .invalidArgument ∧
      getItemBySerialNumber "" [⟨"a", "2020", "m1", "s", "wb", "we"⟩] =
        .error .invalidArgument :=
  empty_lookup_invalid_argument [⟨"a", "2020", "m1", "s", "wb", "we"⟩]

/-- C9: the public update input (`ItemInputUpdate`) carries no
`dateCreatedAt` field, and after any sequence of `updateItem` operations
a stored Item is still retrievable under its id with its `dateCreatedAt`
unchanged from creation. -/
theorem updates_preserve_dateCreatedAt (us : List ItemInputUpdate) (id : String)
    (s : Store) (i0 : Item) (hstored : getItemById id s = .ok i0) :
    itemInputUpdateFields.find? (fun f => f.name == "dateCreatedAt") = none ∧
      ∃ i1, getItemById id (updSeq us s) = .ok i1 ∧
        i1.id = i0.id ∧ i1.dateCreatedAt = i0.dateCreatedAt := by
  refine ⟨rfl, ?_⟩
  obtain ⟨hne, hfind⟩ := getItemById_ok_elim id s i0 hstored
  have hmap := find_key_of_map_eq id s (updSeq us s) (updSeq_map us s)
  rw [hfind] at hmap
  cases hf : (updSeq us s).find? (fun j => j.id == id) with
  | none => rw [hf] at hmap; exact Option.noConfusion hmap
  | some i1 =>
    rw [hf] at hmap
    injection hmap with hmap
    refine ⟨i1, ?_, congrArg Prod.fst hmap, congrArg Prod.snd hmap⟩
    rw [getItemById, if_neg (by simp [hne]), getById, hf]

/-- Witness for C9 at a concrete input. -/
theorem updates_preserve_dateCreatedAt_witness :
    itemInputUpdateFields.find? (fun f => f.name == "dateCreatedAt") = none ∧
      ∃ i1, getItemById "a"
          (updSeq [⟨some "a", some "m9", none, none, none⟩]
            [⟨"a", "2020", "m1", "s", "wb", "we"⟩]) = .ok i1 ∧
        i1.id = Item.id ⟨"a", "2020", "m1", "s", "wb", "we"⟩ ∧
        i1.dateCreatedAt = Item.dateCreatedAt ⟨"a", "2020", "m1", "s", "wb", "we"⟩ :=
  updates_preserve_dateCreatedAt [⟨some "a", some "m9", none, none, none⟩] "a"
    [⟨"a", "2020", "m1", "s", "wb", "we"⟩] ⟨"a", "2020", "m1", "s", "wb", "we"⟩ rfl

/-- C10: in the schema's `Mutation` type, `deleteItem` is declared with
result type `String` without the non-null marker: the interface type
itself permits resolving with no value, so a non-null echoed id is not
guaranteed by the type. -/
theorem deleteItem_result_type_nullable :
    ∃ f, mutationFields.find? (fun g => g.name == "deleteItem") = some f ∧
      f.ret = ⟨.gqlString, false⟩ ∧ f.ret.nonNull = false :=
  ⟨_, rfl, rfl, rfl⟩

end ItemsApi
